import Mathlib

/-!
Shallow embedding of `src/generate.py` (html_multi_window).

Calendar dates are embedded as proleptic-Gregorian ordinals (`Nat`), exactly
Python's `date.toordinal()`: ordinal 1 is 0001-01-01, a Monday.  Adding
`timedelta(days = i)` is `+ i`, `(b - a).days` is integer subtraction, and
`date.weekday()` (Mon = 0 .. Sun = 6) is `(o + 6) % 7`.  The conversion of an
ordinal back to a civil year/month/day (needed for `strftime("%Y-%m-%d")`)
uses the standard days-to-civil algorithm over 400-year eras.
-/

namespace Gen

/-- `date.weekday()` of an ordinal: Monday = 0 .. Sunday = 6 (ordinal 1 is a Monday). -/
def weekday (o : Nat) : Nat := (o + 6) % 7

/-- Civil (year, month, day) of a proleptic-Gregorian ordinal, as used by
`date.strftime("%Y-%m-%d")`.  Standard era-based conversion: `o + 305` is the
number of days since 0000-03-01. -/
def civilFromOrdinal (o : Nat) : Nat × Nat × Nat :=
  let z := o + 305
  let era := z / 146097
  let doe := z % 146097
  let yoe := (doe - doe / 1460 + doe / 36524 - doe / 146096) / 365
  let doy := doe - (365 * yoe + yoe / 4 - yoe / 100)
  let mp := (5 * doy + 2) / 153
  let d := doy - (153 * mp + 2) / 5 + 1
  let m := if mp < 10 then mp + 3 else mp - 9
  let y := yoe + era * 400 + (if m ≤ 2 then 1 else 0)
  (y, m, d)

/-- Decimal rendering of `n`, left-padded with zeros to width `k`. -/
def padZeros (k n : Nat) : String :=
  let s := Nat.repr n
  ⟨List.replicate (k - s.data.length) '0' ++ s.data⟩

/-- `day.strftime("%Y-%m-%d")`: the ISO `YYYY-MM-DD` rendering of an ordinal. -/
def fmtDate (o : Nat) : String :=
  let c := civilFromOrdinal o
  padZeros 4 c.1 ++ "-" ++ padZeros 2 c.2.1 ++ "-" ++ padZeros 2 c.2.2

/-- Characters Python's `str.strip()` removes (ASCII and Latin-1 whitespace;
the exotic Unicode space classes never occur in this program's inputs). -/
def isPySpace (c : Char) : Bool :=
  c = ' ' || c = '\t' || c = '\n' || c = '\r' || c = '\x0b' || c = '\x0c' ||
  c = '\x1c' || c = '\x1d' || c = '\x1e' || c = '\x1f' || c = '\x85' || c = '\xa0'

/-- Python `s.strip()`: drop leading and trailing whitespace. -/
def pyStrip (s : String) : String :=
  ⟨((s.data.dropWhile isPySpace).reverse.dropWhile isPySpace).reverse⟩

/-- The character class `[A-Za-z0-9._-]` of `safe_name`'s regex. -/
def isSafeChar (c : Char) : Bool :=
  ('A' ≤ c && c ≤ 'Z') || ('a' ≤ c && c ≤ 'z') || ('0' ≤ c && c ≤ '9') ||
  c = '.' || c = '_' || c = '-'

/-- Worker for `safe_name`: `re.sub(r"[^A-Za-z0-9._-]+", "_", s)`.  `prevBad`
records whether the previous character was part of a disallowed run (in which
case further disallowed characters extend the same run and emit nothing). -/
def collapseAux : Bool → List Char → List Char
  | _, [] => []
  | prevBad, c :: cs =>
    if isSafeChar c then c :: collapseAux false cs
    else if prevBad then collapseAux true cs
    else '_' :: collapseAux true cs

/-- `safe_name(s) = re.sub(r"[^A-Za-z0-9._-]+", "_", s)`: every maximal run of
characters outside `[A-Za-z0-9._-]` is replaced by a single underscore. -/
def safe_name (s : String) : String := ⟨collapseAux false s.data⟩

/-- `url_for(route, direction)`: the base live-status URL for one direction of
a route; the (stripped) route is both the `input` and the `lineIds` parameter. -/
def url_for (route direction : String) : String :=
  let r := pyStrip route
  "https://tfl.gov.uk/bus/status/?input=" ++ r ++ "&lineIds=" ++ r ++
    "&direction=" ++ direction

/-- `day_bounds_encoded(day)`: the percent-encoded start/end timestamps of one
calendar day (`:` encoded as `%3A`). -/
def day_bounds_encoded (day : Nat) : String × String :=
  let d := fmtDate day
  (d ++ "T00%3A00%3A00", d ++ "T23%3A59%3A59")

/-- The offset from a reference day to the upcoming Saturday:
`(5 - weekday) % 7` computed, as in Python, with a nonnegative remainder. -/
def satOffset (o : Nat) : Nat := (((5 : Int) - (weekday o : Int)) % 7).toNat

/-- `weekend_bounds_encoded(today)`: encoded bounds from the upcoming Saturday
00:00:00 to the following Sunday 23:59:59. -/
def weekend_bounds_encoded (today : Nat) : String × String :=
  let sat := today + satOffset today
  let sun := sat + 1
  ((day_bounds_encoded sat).1, (day_bounds_encoded sun).2)

/-- One `(label, url, delay_ms)` triple of an open plan. -/
structure PlanEntry where
  label : String
  url : String
  delay : Nat
deriving DecidableEq, Repr

/-- `open_plan_for_route(route, start_date, end_date, today_for_weekend)`:
the ordered open plan for one route.  `day_count` is Python's
`(end_date - start_date).days` (an integer, so that `range(day_count + 1)` is
empty whenever `end_date + 1 ≤ start_date`, as in Python). -/
def open_plan_for_route (route : String) (start_date end_date today_for_weekend : Nat) :
    List PlanEntry :=
  let base_in := url_for route "inbound"
  let base_out := url_for route "outbound"
  let day_count : Int := (end_date : Int) - (start_date : Int)
  let days : List Nat := (List.range (day_count + 1).toNat).map (fun i => start_date + i)
  let base_delay := 200
  let dayEntries := days.enum.flatMap (fun p =>
    let s := (day_bounds_encoded p.2).1
    let e := (day_bounds_encoded p.2).2
    let day_label := fmtDate p.2
    let url_in := base_in ++ "&dateTypeSelect=Future%20date&startDate=" ++ s ++ "&endDate=" ++ e
    let url_out := base_out ++ "&dateTypeSelect=Future%20date&startDate=" ++ s ++ "&endDate=" ++ e
    let delay := base_delay + p.1 * 350
    [⟨day_label ++ " — inbound", url_in, delay⟩,
     ⟨day_label ++ " — outbound", url_out, delay + 60⟩])
  let wk := weekend_bounds_encoded today_for_weekend
  let w_in := base_in ++ "&startDate=" ++ wk.1 ++ "&endDate=" ++ wk.2 ++ "&dateTypeSelect=This%20weekend"
  let w_out := base_out ++ "&startDate=" ++ wk.1 ++ "&endDate=" ++ wk.2 ++ "&dateTypeSelect=This%20weekend"
  let wk_delay := base_delay + days.length * 350 + 200
  [⟨"Now — inbound", base_in, 0⟩, ⟨"Now — outbound", base_out, 60⟩]
    ++ dayEntries
    ++ [⟨"This weekend — inbound", w_in, wk_delay⟩,
        ⟨"This weekend — outbound", w_out, wk_delay + 60⟩]

/-- The JSON object read from the remote success marker; `data.get(k)` on a
possibly missing key is an `Option`. -/
structure StateJson where
  date : Option String
  status : Option String
deriving DecidableEq

/-- Outcome of fetching the remote marker: HTTP 404, any other failure of the
fetch / status check / JSON parse (all caught by the `except` clause), or a
parsed JSON object. -/
inductive FetchResult where
  | notFound : FetchResult
  | failure : FetchResult
  | ok : StateJson → FetchResult
deriving DecidableEq

/-- `already_succeeded_today`, with the network fetch and "today's London ISO
date" abstracted into parameters: 404 and every other failure yield `false`;
otherwise `true` iff the marker's `date` is today and its `status` is
`"success"`. -/
def already_succeeded_today (fetched : FetchResult) (todayIso : String) : Bool :=
  match fetched with
  | .notFound => false
  | .failure => false
  | .ok data => data.date == some todayIso && data.status == some "success"

/-- Python `str.splitlines()` restricted to the line breaks it recognises in
this program's inputs (`\n`, `\r`, `\r\n`); the segment after the last break
is produced only when nonempty, and the empty string yields no lines. -/
def splitlines : List Char → List Char → List (List Char)
  | acc, [] => if acc.isEmpty then [] else [acc.reverse]
  | acc, '\r' :: '\n' :: rest => acc.reverse :: splitlines [] rest
  | acc, '\n' :: rest => acc.reverse :: splitlines [] rest
  | acc, '\r' :: rest => acc.reverse :: splitlines [] rest
  | acc, c :: rest => splitlines (c :: acc) rest

/-- `[ln.strip() for ln in text.splitlines() if ln.strip()]`: the route list
parsed from `routes.txt`. -/
def parsed_routes (text : String) : List String :=
  ((splitlines [] text.data).map (fun l => pyStrip ⟨l⟩)).filter (fun r => r ≠ "")

/-- The route-loading step of `main`: parse, then reject an empty list and
reject duplicates (`len(routes) != len(set(routes))`). -/
def load_routes (text : String) : Except String (List String) :=
  let routes := parsed_routes text
  if routes = [] then .error "routes.txt loaded but contained no routes."
  else if routes.length ≠ routes.dedup.length then
    .error "Duplicate routes found in routes.txt."
  else .ok routes

/-- The schedule-building part of `main`: load the routes, then build each
route's open plan.  An input error surfaces before any plan is built and
before anything is published. -/
def main_plans (routesText : String) (start_date end_date today_for_weekend : Nat) :
    Except String (List (String × List PlanEntry)) :=
  match load_routes routesText with
  | .error e => .error e
  | .ok routes =>
      .ok (routes.map (fun r => (r, open_plan_for_route r start_date end_date today_for_weekend)))

/-- Spec §4.2, item 1: the two "Now" entries, a live-status URL per direction
with no date parameters, at delays 0 and 60 ms. -/
def specNowBlock (r : String) : List PlanEntry :=
  [⟨"Now — inbound", url_for r "inbound", 0⟩,
   ⟨"Now — outbound", url_for r "outbound", 60⟩]

/-- Spec §4.2, item 2: the two entries of the day at 0-based index `i` of a
window starting at `s` — the day labelled `YYYY-MM-DD`, inbound then outbound,
with that day's encoded bounds, the future-date selector, and delays
`200 + i*350` and 60 ms more. -/
def specDayBlock (r : String) (s i : Nat) : List PlanEntry :=
  [⟨fmtDate (s + i) ++ " — inbound",
    url_for r "inbound" ++ "&dateTypeSelect=Future%20date&startDate=" ++
      (day_bounds_encoded (s + i)).1 ++ "&endDate=" ++ (day_bounds_encoded (s + i)).2,
    200 + i * 350⟩,
   ⟨fmtDate (s + i) ++ " — outbound",
    url_for r "outbound" ++ "&dateTypeSelect=Future%20date&startDate=" ++
      (day_bounds_encoded (s + i)).1 ++ "&endDate=" ++ (day_bounds_encoded (s + i)).2,
    200 + i * 350 + 60⟩]

/-- Spec §4.2, item 3: the two "This weekend" entries for a window of
`dayCount` days, carrying the weekend bounds of reference day `t` and the
distinct weekend selector, at delays `200 + dayCount*350 + 200` and 60 ms
more. -/
def specWeekendBlock (r : String) (t dayCount : Nat) : List PlanEntry :=
  [⟨"This weekend — inbound",
    url_for r "inbound" ++ "&startDate=" ++ (weekend_bounds_encoded t).1 ++
      "&endDate=" ++ (weekend_bounds_encoded t).2 ++ "&dateTypeSelect=This%20weekend",
    200 + dayCount * 350 + 200⟩,
   ⟨"This weekend — outbound",
    url_for r "outbound" ++ "&startDate=" ++ (weekend_bounds_encoded t).1 ++
      "&endDate=" ++ (weekend_bounds_encoded t).2 ++ "&dateTypeSelect=This%20weekend",
    200 + dayCount * 350 + 200 + 60⟩]

/-- The full plan the spec's contract (§4.2) prescribes for a window
`[s, e]` with `s ≤ e`: now-block, then one day-block per day of the window in
ascending order, then the weekend block, `dayCount = e - s + 1`. -/
def specPlan (r : String) (s e t : Nat) : List PlanEntry :=
  specNowBlock r
    ++ (List.range (e - s + 1)).flatMap (specDayBlock r s)
    ++ specWeekendBlock r t (e - s + 1)

/-- Modelled from the spec (§3, §4.2 of the data-model description) for the
refinement claim about `safe_name`: split the input at the boundaries of
maximal runs of disallowed characters and replace each such run (one or more
characters long) by a single `'_'`. -/
def collapseRunsSpec : List Char → List Char
  | [] => []
  | c :: cs =>
    if isSafeChar c then c :: collapseRunsSpec cs
    else '_' :: collapseRunsSpec (cs.dropWhile (fun x => !isSafeChar x))
termination_by l => l.length
decreasing_by
  simp_wf
  simp only [List.length_cons]
  have h : ((cs.dropWhile fun x => !isSafeChar x).length ≤ cs.length) :=
    List.Sublist.length_le (List.dropWhile_sublist _)
  omega

/-! Helper lemmas used by several claims. -/

lemma enum_range (n : Nat) :
    (List.range n).enum = (List.range n).map (fun i => (i, i)) := by
  rw [List.enum_eq_zip_range, List.length_range, ← List.map_id (List.range n), List.zip_map']
  simp

lemma enum_map_range {α : Type} (n : Nat) (f : Nat → α) :
    ((List.range n).map f).enum = (List.range n).map (fun i => (i, f i)) := by
  rw [List.enum_map, enum_range, List.map_map]
  rfl

lemma open_plan_shape (r : String) (s e t : Nat) (h : s ≤ e) :
    open_plan_for_route r s e t = specPlan r s e t := by
  have hn : ((e : Int) - (s : Int) + 1).toNat = e - s + 1 := by omega
  simp only [open_plan_for_route, specPlan, specNowBlock, specDayBlock, specWeekendBlock,
    hn, enum_map_range, List.flatMap_map, List.length_map, List.length_range]
  rfl

lemma delays_shape (r : String) (s e t : Nat) (h : s ≤ e) :
    (open_plan_for_route r s e t).map PlanEntry.delay =
      [0, 60]
        ++ (List.range (e - s + 1)).flatMap (fun i => [200 + i * 350, 200 + i * 350 + 60])
        ++ [200 + (e - s + 1) * 350 + 200, 200 + (e - s + 1) * 350 + 200 + 60] := by
  rw [open_plan_shape r s e t h]
  simp [specPlan, specNowBlock, specDayBlock, specWeekendBlock, List.map_flatMap]

lemma blocks_length {α : Type} (F : Nat → List α) (hF : ∀ i, (F i).length = 2) (n : Nat) :
    ((List.range n).flatMap F).length = 2 * n := by
  induction n with
  | zero => simp
  | succ m ih =>
      rw [List.range_succ, List.flatMap_append]
      simp [ih, hF]
      omega

/-! Theorems for the claims, one per claim, each with its witness. -/

/-- C1: for every route, every window `[start, end]` with `start ≤ end` and
every reference day, the generated plan is exactly, in this order: the two
"Now" entries (live-status URLs, no date parameters), then per day of the
window in ascending order an inbound and an outbound entry labelled
`YYYY-MM-DD` with that day's encoded bounds and the future-date selector, then
the two "This weekend" entries with the weekend bounds and the distinct
weekend selector. -/
theorem plan_sequence_exact (r : String) (s e t : Nat) (h : s ≤ e) :
    open_plan_for_route r s e t =
      specNowBlock r
        ++ (List.range (e - s + 1)).flatMap (specDayBlock r s)
        ++ specWeekendBlock r t (e - s + 1) :=
  open_plan_shape r s e t h

/-- Witness for C1 at the spec's example window 2024-06-01 → 2024-06-03. -/
theorem plan_sequence_exact_witness :
    739038 ≤ 739040 ∧
    open_plan_for_route "24" 739038 739040 739038 =
      specNowBlock "24"
        ++ (List.range (739040 - 739038 + 1)).flatMap (specDayBlock "24" 739038)
        ++ specWeekendBlock "24" 739038 (739040 - 739038 + 1) :=
  ⟨by decide, plan_sequence_exact "24" 739038 739040 739038 (by decide)⟩

/-- C2: the plan's delays are 0 and 60 ms for the "Now" pair, `200 + i*350`
and 60 ms more for the day at 0-based index `i`, and
`200 + dayCount*350 + 200` and 60 ms more for the weekend pair, where
`dayCount = e - s + 1`. -/
theorem plan_delay_schedule (r : String) (s e t : Nat) (h : s ≤ e) :
    (open_plan_for_route r s e t).map PlanEntry.delay =
      [0, 60]
        ++ (List.range (e - s + 1)).flatMap (fun i => [200 + i * 350, 200 + i * 350 + 60])
        ++ [200 + (e - s + 1) * 350 + 200, 200 + (e - s + 1) * 350 + 200 + 60] :=
  delays_shape r s e t h

/-- Witness for C2 at the spec's example window. -/
theorem plan_delay_schedule_witness :
    739038 ≤ 739040 ∧
    (open_plan_for_route "24" 739038 739040 739038).map PlanEntry.delay =
      [0, 60]
        ++ (List.range (739040 - 739038 + 1)).flatMap
            (fun i => [200 + i * 350, 200 + i * 350 + 60])
        ++ [200 + (739040 - 739038 + 1) * 350 + 200,
            200 + (739040 - 739038 + 1) * 350 + 200 + 60] :=
  ⟨by decide, plan_delay_schedule "24" 739038 739040 739038 (by decide)⟩

/-- C3: every plan of a window `[s, e]` with `s ≤ e` has exactly
`2 + 2*dayCount + 2` entries, `dayCount = e - s + 1`; in particular the 3-day
window 2024-06-01 → 2024-06-03 (ordinals 739038..739040) yields 10 entries,
with first day-entry delay 200 ms, its outbound 260 ms, and second-day inbound
550 ms. -/
theorem plan_entry_count :
    (∀ (r : String) (s e t : Nat), s ≤ e →
        (open_plan_for_route r s e t).length = 2 + 2 * (e - s + 1) + 2) ∧
    (open_plan_for_route "24" 739038 739040 739038).length = 10 ∧
    ((open_plan_for_route "24" 739038 739040 739038).map PlanEntry.delay)[2]? = some 200 ∧
    ((open_plan_for_route "24" 739038 739040 739038).map PlanEntry.delay)[3]? = some 260 ∧
    ((open_plan_for_route "24" 739038 739040 739038).map PlanEntry.delay)[4]? = some 550 := by
  refine ⟨?_, by decide, by decide, by decide, by decide⟩
  intro r s e t h
  rw [open_plan_shape r s e t h]
  simp only [specPlan, List.length_append]
  rw [blocks_length (specDayBlock r s) (fun i => rfl) (e - s + 1)]
  simp [specNowBlock, specWeekendBlock]

/-- Witness for C3's universally quantified part. -/
theorem plan_entry_count_witness :
    739038 ≤ 739040 ∧
    (open_plan_for_route "24" 739038 739040 739038).length =
      2 + 2 * (739040 - 739038 + 1) + 2 :=
  ⟨by decide, plan_entry_count.1 "24" 739038 739040 739038 (by decide)⟩

/-- C4: the publish gate fails open — `false` on a missing marker (404),
`false` on any other fetch/parse failure, and `true` exactly when the fetched
state's date is today's ISO date and its status is `"success"`. -/
theorem gate_fail_open (todayIso : String) :
    already_succeeded_today FetchResult.notFound todayIso = false ∧
    already_succeeded_today FetchResult.failure todayIso = false ∧
    ∀ data : StateJson,
      (already_succeeded_today (FetchResult.ok data) todayIso = true ↔
        (data.date = some todayIso ∧ data.status = some "success")) := by
  refine ⟨rfl, rfl, ?_⟩
  intro data
  simp [already_succeeded_today]

/-- Witness for C4 at a concrete date string. -/
theorem gate_fail_open_witness :
    already_succeeded_today FetchResult.notFound "2024-06-01" = false ∧
    already_succeeded_today FetchResult.failure "2024-06-01" = false ∧
    ∀ data : StateJson,
      (already_succeeded_today (FetchResult.ok data) "2024-06-01" = true ↔
        (data.date = some "2024-06-01" ∧ data.status = some "success")) :=
  gate_fail_open "2024-06-01"

/-- C5: for every reference day, `weekend_bounds_encoded` returns the pair
(upcoming Saturday 00:00:00, following Sunday 23:59:59) with Saturday offset
`(5 - weekday) mod 7` (Monday = 0 .. Sunday = 6); the start really is a
Saturday and the end a Sunday, a Saturday maps to itself (offset 0), and a
Sunday maps 6 days ahead to the next Saturday, never back. -/
theorem weekend_upcoming_saturday (o : Nat) :
    weekend_bounds_encoded o =
      (fmtDate (o + satOffset o) ++ "T00%3A00%3A00",
       fmtDate (o + satOffset o + 1) ++ "T23%3A59%3A59") ∧
    weekday (o + satOffset o) = 5 ∧
    weekday (o + satOffset o + 1) = 6 ∧
    (weekday o = 5 → satOffset o = 0) ∧
    (weekday o = 6 → satOffset o = 6) := by
  refine ⟨rfl, ?_, ?_, ?_, ?_⟩ <;> (simp only [weekday, satOffset]; omega)

/-- Witness for C5 at 2024-06-01, a Saturday. -/
theorem weekend_upcoming_saturday_witness :
    weekend_bounds_encoded 739038 =
      (fmtDate (739038 + satOffset 739038) ++ "T00%3A00%3A00",
       fmtDate (739038 + satOffset 739038 + 1) ++ "T23%3A59%3A59") ∧
    weekday (739038 + satOffset 739038) = 5 ∧
    weekday (739038 + satOffset 739038 + 1) = 6 ∧
    (weekday 739038 = 5 → satOffset 739038 = 0) ∧
    (weekday 739038 = 6 → satOffset 739038 = 6) :=
  weekend_upcoming_saturday 739038

lemma nodup_iff_dedup_len {α : Type} [DecidableEq α] (l : List α) :
    l.Nodup ↔ l.dedup.length = l.length := by
  constructor
  · intro h
    rw [List.dedup_eq_self.2 h]
  · intro h
    have hd := List.Sublist.eq_of_length (List.dedup_sublist l) h
    rw [← hd]
    exact List.nodup_dedup l

/-- C6: an empty parsed route list or a duplicated route is fatal — the run
errors out before any per-route schedule is built (so nothing can be
published and no state written). -/
theorem loader_rejects_bad_input (text : String) (s e t : Nat)
    (h : parsed_routes text = [] ∨ ¬ (parsed_routes text).Nodup) :
    ∃ msg, main_plans text s e t = Except.error msg := by
  rcases h with h | h
  · refine ⟨"routes.txt loaded but contained no routes.", ?_⟩
    simp [main_plans, load_routes, h]
  · by_cases h0 : parsed_routes text = []
    · refine ⟨"routes.txt loaded but contained no routes.", ?_⟩
      simp [main_plans, load_routes, h0]
    · have hlen : (parsed_routes text).length ≠ (parsed_routes text).dedup.length := by
        intro he
        exact h ((nodup_iff_dedup_len _).2 he.symm)
      refine ⟨"Duplicate routes found in routes.txt.", ?_⟩
      simp [main_plans, load_routes, h0, hlen]

/-- Witness for C6: route file content "24\n24\n" parses to the duplicate
list ["24", "24"] and is rejected. -/
theorem loader_rejects_bad_input_witness :
    (parsed_routes "24\n24\n" = [] ∨ ¬ (parsed_routes "24\n24\n").Nodup) ∧
    ∃ msg, main_plans "24\n24\n" 739038 739040 739038 = Except.error msg :=
  ⟨by decide, loader_rejects_bad_input "24\n24\n" 739038 739040 739038 (by decide)⟩

lemma dayDelays_length (n : Nat) :
    ((List.range n).flatMap (fun i => [200 + i * 350, 200 + i * 350 + 60])).length = 2 * n :=
  blocks_length (fun i => [200 + i * 350, 200 + i * 350 + 60]) (fun _ => rfl) n

lemma dayDelays_getElem (n i : Nat) (hi : i < n) :
    ((List.range n).flatMap (fun j => [200 + j * 350, 200 + j * 350 + 60]))[2 * i]? =
        some (200 + i * 350) ∧
    ((List.range n).flatMap (fun j => [200 + j * 350, 200 + j * 350 + 60]))[2 * i + 1]? =
        some (200 + i * 350 + 60) := by
  induction n with
  | zero => omega
  | succ m ih =>
      rw [List.range_succ, List.flatMap_append]
      by_cases him : i < m
      · have hb1 : 2 * i <
            ((List.range m).flatMap (fun j => [200 + j * 350, 200 + j * 350 + 60])).length := by
          rw [dayDelays_length]; omega
        have hb2 : 2 * i + 1 <
            ((List.range m).flatMap (fun j => [200 + j * 350, 200 + j * 350 + 60])).length := by
          rw [dayDelays_length]; omega
        rw [List.getElem?_append_left hb1, List.getElem?_append_left hb2]
        exact ih him
      · have him' : i = m := by omega
        subst him'
        have hb1 : ((List.range i).flatMap
            (fun j => [200 + j * 350, 200 + j * 350 + 60])).length ≤ 2 * i := by
          rw [dayDelays_length]
        have hb2 : ((List.range i).flatMap
            (fun j => [200 + j * 350, 200 + j * 350 + 60])).length ≤ 2 * i + 1 := by
          rw [dayDelays_length]; omega
        rw [List.getElem?_append_right hb1, List.getElem?_append_right hb2, dayDelays_length]
        have h0 : 2 * i - 2 * i = 0 := by omega
        have h1 : 2 * i + 1 - 2 * i = 1 := by omega
        rw [h0, h1]
        simp

lemma dayDelays_head (m : Nat) :
    ((List.range (m + 1)).flatMap (fun i => [200 + i * 350, 200 + i * 350 + 60])).head? =
      some 200 := by
  rw [List.range_succ_eq_map]
  simp

lemma dayDelays_getLast (m : Nat) :
    ((List.range (m + 1)).flatMap (fun i => [200 + i * 350, 200 + i * 350 + 60])).getLast? =
      some (200 + m * 350 + 60) := by
  rw [List.range_succ, List.flatMap_append, List.getLast?_append]
  simp

lemma dayDelays_chain (n : Nat) :
    List.Chain' (fun a b => a ≤ b)
      ((List.range n).flatMap (fun i => [200 + i * 350, 200 + i * 350 + 60])) := by
  induction n with
  | zero => simp
  | succ m ih =>
      rw [List.range_succ, List.flatMap_append]
      refine List.chain'_append.2 ⟨ih, ?_, ?_⟩
      · simp [List.chain'_pair]
      · intro x hx y hy
        match m, hx with
        | m + 1, hx =>
            rw [dayDelays_getLast] at hx
            simp at hx hy
            omega

/-- C7: the plan's delays are non-decreasing from first to last entry, the
inbound delay of each day exceeds the previous day's inbound delay by exactly
350 ms, and monotonicity also holds from the last day's outbound entry (index
`2*dayCount + 1`) to the weekend inbound entry (index `2*dayCount + 2`). -/
theorem plan_delays_monotone (r : String) (s e t : Nat) (h : s ≤ e) :
    List.Chain' (fun a b => a ≤ b) ((open_plan_for_route r s e t).map PlanEntry.delay) ∧
    (∀ i : Nat, i + 1 ≤ e - s →
      ∃ a b,
        ((open_plan_for_route r s e t).map PlanEntry.delay)[2 + 2 * i]? = some a ∧
        ((open_plan_for_route r s e t).map PlanEntry.delay)[2 + 2 * (i + 1)]? = some b ∧
        b = a + 350) ∧
    (∃ a b,
      ((open_plan_for_route r s e t).map PlanEntry.delay)[2 * (e - s + 1) + 1]? = some a ∧
      ((open_plan_for_route r s e t).map PlanEntry.delay)[2 * (e - s + 1) + 2]? = some b ∧
      a ≤ b) := by
  rw [delays_shape r s e t h]
  simp only [List.cons_append, List.nil_append]
  refine ⟨?_, ?_, ?_⟩
  · rw [List.chain'_cons, List.chain'_cons']
    refine ⟨by omega, ?_, ?_⟩
    · intro y hy
      rw [List.head?_append, dayDelays_head] at hy
      simp at hy
      omega
    · refine List.chain'_append.2 ⟨dayDelays_chain _, ?_, ?_⟩
      · simp [List.chain'_pair]
      · intro x hx y hy
        rw [dayDelays_getLast] at hx
        simp at hx hy
        omega
  · intro i hi
    refine ⟨200 + i * 350, 200 + (i + 1) * 350, ?_, ?_, by ring⟩
    · have hidx : 2 + 2 * i = 2 * i + 1 + 1 := by omega
      rw [hidx, List.getElem?_cons_succ, List.getElem?_cons_succ]
      have hb : 2 * i < ((List.range (e - s + 1)).flatMap
          (fun j => [200 + j * 350, 200 + j * 350 + 60])).length := by
        rw [dayDelays_length]; omega
      rw [List.getElem?_append_left hb]
      exact (dayDelays_getElem (e - s + 1) i (by omega)).1
    · have hidx : 2 + 2 * (i + 1) = 2 * (i + 1) + 1 + 1 := by omega
      rw [hidx, List.getElem?_cons_succ, List.getElem?_cons_succ]
      have hb : 2 * (i + 1) < ((List.range (e - s + 1)).flatMap
          (fun j => [200 + j * 350, 200 + j * 350 + 60])).length := by
        rw [dayDelays_length]; omega
      rw [List.getElem?_append_left hb]
      exact (dayDelays_getElem (e - s + 1) (i + 1) (by omega)).1
  · refine ⟨200 + (e - s) * 350 + 60, 200 + (e - s + 1) * 350 + 200, ?_, ?_, by omega⟩
    · have hidx : 2 * (e - s + 1) + 1 = 2 * (e - s) + 1 + 1 + 1 := by omega
      rw [hidx, List.getElem?_cons_succ, List.getElem?_cons_succ]
      have hb : 2 * (e - s) + 1 < ((List.range (e - s + 1)).flatMap
          (fun j => [200 + j * 350, 200 + j * 350 + 60])).length := by
        rw [dayDelays_length]; omega
      rw [List.getElem?_append_left hb]
      exact (dayDelays_getElem (e - s + 1) (e - s) (by omega)).2
    · have hidx : 2 * (e - s + 1) + 2 = 2 * (e - s + 1) + 1 + 1 := by omega
      rw [hidx, List.getElem?_cons_succ, List.getElem?_cons_succ]
      have hb : ((List.range (e - s + 1)).flatMap
          (fun j => [200 + j * 350, 200 + j * 350 + 60])).length ≤ 2 * (e - s + 1) := by
        rw [dayDelays_length]
      rw [List.getElem?_append_right hb, dayDelays_length]
      have h0 : 2 * (e - s + 1) - 2 * (e - s + 1) = 0 := by omega
      rw [h0]
      simp

/-- Witness for C7 at the spec's example window. -/
theorem plan_delays_monotone_witness :
    739038 ≤ 739040 ∧
    (List.Chain' (fun a b => a ≤ b)
        ((open_plan_for_route "24" 739038 739040 739038).map PlanEntry.delay) ∧
      (∀ i : Nat, i + 1 ≤ 739040 - 739038 →
        ∃ a b,
          ((open_plan_for_route "24" 739038 739040 739038).map PlanEntry.delay)[2 + 2 * i]? =
            some a ∧
          ((open_plan_for_route "24" 739038 739040 739038).map
              PlanEntry.delay)[2 + 2 * (i + 1)]? = some b ∧
          b = a + 350) ∧
      (∃ a b,
        ((open_plan_for_route "24" 739038 739040 739038).map
            PlanEntry.delay)[2 * (739040 - 739038 + 1) + 1]? = some a ∧
        ((open_plan_for_route "24" 739038 739040 739038).map
            PlanEntry.delay)[2 * (739040 - 739038 + 1) + 2]? = some b ∧
        a ≤ b)) :=
  ⟨by decide, plan_delays_monotone "24" 739038 739040 739038 (by decide)⟩

lemma dropWhile_idem (p : Char → Bool) (l : List Char) :
    (l.dropWhile p).dropWhile p = l.dropWhile p := by
  induction l with
  | nil => rfl
  | cons a as ih =>
      by_cases ha : p a
      · simp [List.dropWhile_cons, ha, ih]
      · simp [List.dropWhile_cons, ha]

lemma dropWhile_eq_self_of_head (p : Char → Bool) (l : List Char) (c : Char)
    (hc : l.head? = some c) (hp : p c = false) : l.dropWhile p = l := by
  cases l with
  | nil => simp at hc
  | cons a as =>
      simp only [List.head?_cons, Option.some.injEq] at hc
      subst hc
      simp [List.dropWhile_cons, hp]

lemma getLast?_dropWhile (p : Char → Bool) :
    ∀ l : List Char, l.dropWhile p ≠ [] → (l.dropWhile p).getLast? = l.getLast?
  | [], h => absurd rfl h
  | a :: as, h => by
      by_cases ha : p a
      · have hd : (a :: as).dropWhile p = as.dropWhile p := by
          simp [List.dropWhile_cons, ha]
        rw [hd] at h ⊢
        cases as with
        | nil => exact absurd rfl h
        | cons b bs =>
            rw [getLast?_dropWhile p (b :: bs) h, List.getLast?_cons_cons]
      · simp [List.dropWhile_cons, ha]

lemma strip_twice (L : List Char) :
    (((((L.dropWhile isPySpace).reverse.dropWhile isPySpace).reverse.dropWhile
        isPySpace).reverse.dropWhile isPySpace).reverse) =
      ((L.dropWhile isPySpace).reverse.dropWhile isPySpace).reverse := by
  have hh := List.head?_dropWhile_not isPySpace L
  generalize hA : L.dropWhile isPySpace = A at *
  cases hB : A.reverse.dropWhile isPySpace with
  | nil => simp
  | cons b bs =>
      have hAne : A ≠ [] := by
        intro h0
        rw [h0] at hB
        simp at hB
      obtain ⟨a, as, rfl⟩ : ∃ a as, A = a :: as := by
        cases A with
        | nil => exact absurd rfl hAne
        | cons a as => exact ⟨a, as, rfl⟩
      have hpa : isPySpace a = false := by
        simpa using hh
      have hgl2 : (b :: bs).getLast? = some a := by
        have hg := getLast?_dropWhile isPySpace ((a :: as).reverse) (by rw [hB]; simp)
        rw [hB, List.getLast?_reverse, List.head?_cons] at hg
        exact hg
      have hstep1 : ((b :: bs).reverse).dropWhile isPySpace = (b :: bs).reverse := by
        apply dropWhile_eq_self_of_head isPySpace _ a
        · rw [List.head?_reverse]
          exact hgl2
        · exact hpa
      rw [hstep1, List.reverse_reverse, ← hB, dropWhile_idem, hB]

lemma pyStrip_idem (s : String) : pyStrip (pyStrip s) = pyStrip s :=
  congrArg String.mk (strip_twice s.data)

lemma load_routes_ok (text : String) (routes : List String)
    (h : load_routes text = Except.ok routes) : routes = parsed_routes text := by
  simp only [load_routes] at h
  split at h
  · exact absurd h (by simp)
  · split at h
    · exact absurd h (by simp)
    · simp only [Except.ok.injEq] at h
      exact h.symm

lemma parsed_routes_stripped (text : String) (r : String) (hr : r ∈ parsed_routes text) :
    pyStrip r = r := by
  unfold parsed_routes at hr
  rw [List.mem_filter] at hr
  obtain ⟨l, _, hl⟩ := List.mem_map.1 hr.1
  rw [← hl]
  exact pyStrip_idem ⟨l⟩

/-- C8: every URL of a route's plan uses the route identifier verbatim, as
both the `input` and the `lineIds` query parameter, together with one of the
two directions; and every route the loader accepts satisfies the verbatim
precondition (it is its own stripped form). -/
theorem route_verbatim_in_urls :
    (∀ (r : String) (s e t : Nat), pyStrip r = r →
      ∀ entry ∈ open_plan_for_route r s e t,
        ∃ dir rest, (dir = "inbound" ∨ dir = "outbound") ∧
          entry.url =
            "https://tfl.gov.uk/bus/status/?input=" ++ r ++ "&lineIds=" ++ r ++
              "&direction=" ++ dir ++ rest) ∧
    (∀ (text : String) (routes : List String), load_routes text = Except.ok routes →
      ∀ r ∈ routes, pyStrip r = r) := by
  constructor
  · intro r s e t hr entry hmem
    have hbase : ∀ dir : String, url_for r dir =
        "https://tfl.gov.uk/bus/status/?input=" ++ r ++ "&lineIds=" ++ r ++
          "&direction=" ++ dir := by
      intro dir
      simp [url_for, hr]
    simp only [open_plan_for_route, List.mem_append, List.mem_cons, List.not_mem_nil,
      or_false, List.mem_flatMap] at hmem
    rcases hmem with ((rfl | rfl) | ⟨p, _, (rfl | rfl)⟩) | (rfl | rfl)
    · exact ⟨"inbound", "", Or.inl rfl, by rw [hbase, String.append_empty]⟩
    · exact ⟨"outbound", "", Or.inr rfl, by rw [hbase, String.append_empty]⟩
    · refine ⟨"inbound",
        "&dateTypeSelect=Future%20date&startDate=" ++ (day_bounds_encoded p.2).1 ++
          "&endDate=" ++ (day_bounds_encoded p.2).2, Or.inl rfl, ?_⟩
      rw [hbase]
      simp only [String.append_assoc]
    · refine ⟨"outbound",
        "&dateTypeSelect=Future%20date&startDate=" ++ (day_bounds_encoded p.2).1 ++
          "&endDate=" ++ (day_bounds_encoded p.2).2, Or.inr rfl, ?_⟩
      rw [hbase]
      simp only [String.append_assoc]
    · refine ⟨"inbound",
        "&startDate=" ++ (weekend_bounds_encoded t).1 ++ "&endDate=" ++
          (weekend_bounds_encoded t).2 ++ "&dateTypeSelect=This%20weekend", Or.inl rfl, ?_⟩
      rw [hbase]
      simp only [String.append_assoc]
    · refine ⟨"outbound",
        "&startDate=" ++ (weekend_bounds_encoded t).1 ++ "&endDate=" ++
          (weekend_bounds_encoded t).2 ++ "&dateTypeSelect=This%20weekend", Or.inr rfl, ?_⟩
      rw [hbase]
      simp only [String.append_assoc]
  · intro text routes hok r hr
    exact parsed_routes_stripped text r (load_routes_ok text routes hok ▸ hr)

/-- Witness for C8's first part at route "24". -/
theorem route_verbatim_in_urls_witness :
    pyStrip "24" = "24" ∧
    ∀ entry ∈ open_plan_for_route "24" 739038 739040 739038,
      ∃ dir rest, (dir = "inbound" ∨ dir = "outbound") ∧
        entry.url =
          "https://tfl.gov.uk/bus/status/?input=" ++ "24" ++ "&lineIds=" ++ "24" ++
            "&direction=" ++ dir ++ rest :=
  ⟨by decide, route_verbatim_in_urls.1 "24" 739038 739040 739038 (by decide)⟩

lemma collapseAux_all_safe (l : List Char) :
    ∀ (prev : Bool), ∀ c ∈ collapseAux prev l, isSafeChar c = true := by
  induction l with
  | nil =>
      intro prev c hc
      simp [collapseAux] at hc
  | cons a as ih =>
      intro prev c hc
      by_cases ha : isSafeChar a
      · simp only [collapseAux, ha, if_true] at hc
        rw [List.mem_cons] at hc
        rcases hc with rfl | hc
        · exact ha
        · exact ih false c hc
      · simp only [collapseAux, ha, Bool.false_eq_true, if_false] at hc
        cases prev with
        | true =>
            simp only [if_true] at hc
            exact ih true c hc
        | false =>
            simp only [Bool.false_eq_true, if_false] at hc
            rw [List.mem_cons] at hc
            rcases hc with rfl | hc
            · decide
            · exact ih true c hc

lemma collapseAux_of_safe (l : List Char) (hl : ∀ c ∈ l, isSafeChar c = true) :
    ∀ prev : Bool, collapseAux prev l = l := by
  induction l with
  | nil =>
      intro prev
      rfl
  | cons a as ih =>
      intro prev
      have ha : isSafeChar a = true := hl a (by simp)
      have has : ∀ c ∈ as, isSafeChar c = true := fun c hc => hl c (by simp [hc])
      simp [collapseAux, ha, ih has]

/-- C9: route-name sanitization is idempotent — sanitizing an
already-sanitized value returns it unchanged. -/
theorem safe_name_idempotent (s : String) : safe_name (safe_name s) = safe_name s :=
  congrArg String.mk
    (collapseAux_of_safe (collapseAux false s.data)
      (fun c hc => collapseAux_all_safe s.data false c hc) false)

lemma collapseAux_eq_spec (l : List Char) :
    collapseAux false l = collapseRunsSpec l ∧
    collapseAux true l = collapseRunsSpec (l.dropWhile (fun x => !isSafeChar x)) := by
  induction l with
  | nil => constructor <;> simp [collapseAux, collapseRunsSpec]
  | cons a as ih =>
      by_cases ha : isSafeChar a
      · constructor
        · rw [collapseRunsSpec]
          simp only [collapseAux, ha, if_true]
          rw [ih.1]
        · rw [List.dropWhile_cons]
          simp only [ha, Bool.not_true, Bool.false_eq_true, if_false]
          rw [collapseRunsSpec]
          simp only [collapseAux, ha, if_true]
          rw [ih.1]
      · constructor
        · rw [collapseRunsSpec]
          simp only [collapseAux, ha, Bool.false_eq_true, if_false]
          rw [ih.2]
        · rw [List.dropWhile_cons]
          simp only [ha, Bool.not_false, if_true, Bool.false_eq_true, if_false]
          simp only [collapseAux, ha, Bool.false_eq_true, if_false, if_true]
          rw [ih.2]

/-- C10: every character of `safe_name(s)` lies in `[A-Za-z0-9._-]`, and
`safe_name` agrees with the spec-side description that replaces each maximal
run of one or more disallowed characters with a single underscore. -/
theorem safe_name_class_and_runs (s : String) :
    (∀ c ∈ (safe_name s).data, isSafeChar c = true) ∧
    safe_name s = ⟨collapseRunsSpec s.data⟩ :=
  ⟨fun c hc => collapseAux_all_safe s.data false c hc,
   congrArg String.mk (collapseAux_eq_spec s.data).1⟩

/-- Witness for C10 at a concrete string with a run of two disallowed
characters. -/
theorem safe_name_class_and_runs_witness :
    (∀ c ∈ (safe_name "a/ b!!c").data, isSafeChar c = true) ∧
    safe_name "a/ b!!c" = ⟨collapseRunsSpec "a/ b!!c".data⟩ :=
  safe_name_class_and_runs "a/ b!!c"

end Gen

